import Mathlib

/-!
Shallow embedding of the monitoring core of the `azure-monitor-app`
repository: the website monitor (`src/websiteMonitor.js`, class
`WebsiteMonitor`) and the Azure file-share monitor (class
`AzureFileMonitor`).  Network behaviour (axios outcomes, share existence,
directory listings, per-file property fetches) is supplied as explicit
data; machine timestamps are natural numbers; wall-clock `timestamp`
fields of results are omitted (they are fresh `new Date()` values with no
algorithmic content).
-/

namespace AzureMonitorApp

/-- JavaScript truthiness of an optional string field: `undefined` and the
empty string are falsy. -/
def jsTruthyS : Option String → Bool
  | none => false
  | some s => !s.isEmpty

/-- JavaScript `a || b` for an optional string `a` with string default `b`. -/
def jsOr (a : Option String) (b : String) : String :=
  match a with
  | none => b
  | some s => if s.isEmpty then b else s

/-- Template-literal rendering of a possibly-undefined string field:
`undefined` prints as "undefined". -/
def jsShow (a : Option String) : String := a.getD "undefined"

/-- JS object property assignment `m[k] = v` on an object represented as an
insertion-ordered association list: replaces the value at an existing key
in place, otherwise appends the new property. -/
def objSet {β : Type} : List (String × β) → String → β → List (String × β)
  | [], k, v => [(k, v)]
  | (k', v') :: rest, k, v =>
    if k' = k then (k, v) :: rest else (k', v') :: objSet rest k v

/-! ## Website monitor (`src/websiteMonitor.js`) -/

/-- A configured website target (`config.websites` entry). -/
structure Website where
  url : String
  name : Option String
deriving DecidableEq

/-- An HTTP response as observed through axios. -/
structure HttpResponse where
  status : Nat
  statusText : String
deriving DecidableEq

/-- The axios error object as inspected by the catch block of
`checkWebsite`: `error.response` (set when the remote answered),
`error.code` (ECONNABORTED / ENOTFOUND / ECONNREFUSED / ...), and
`error.message`. -/
structure AxiosError where
  response : Option HttpResponse
  code : Option String
  message : String
deriving DecidableEq

/-- The result record built by `checkWebsite` (wall-clock `timestamp`
omitted). -/
structure WResult where
  url : String
  name : String
  status : String
  statusCode : Nat
  responseTime : Nat
  message : String
deriving DecidableEq

/-- The `validateStatus` predicate passed to axios: resolve for any status
strictly below 500. -/
def validateStatus (status : Nat) : Bool := status < 500

/-- Axios behaviour when the GET obtained an HTTP response: with the
monitor's `validateStatus` option, the promise resolves for status < 500
and rejects with `error.response` set for status >= 500. -/
def axiosGetResponse (resp : HttpResponse) : Except AxiosError HttpResponse :=
  if validateStatus resp.status then Except.ok resp
  else
    Except.error
      { response := some resp, code := none,
        message := "Request failed with status code " ++ toString resp.status }

/-- Embedding of `WebsiteMonitor.checkWebsite`: the axios call's outcome is passed in as
`res`, the measured elapsed wall-clock time as `elapsed`.  The whole body
is a try/catch, so the function is total: every outcome yields a result
record. -/
def checkWebsite (w : Website) (res : Except AxiosError HttpResponse)
    (elapsed : Nat) : WResult :=
  match res with
  | Except.ok response =>
    { url := w.url, name := jsOr w.name w.url, status := "up",
      statusCode := response.status, responseTime := elapsed,
      message := "OK - " ++ toString response.status }
  | Except.error err =>
    let classified : Nat × String :=
      match err.response with
      | some r => (r.status, "HTTP " ++ toString r.status ++ " - " ++ r.statusText)
      | none =>
        if err.code = some "ECONNABORTED" then (0, "Request timeout")
        else if err.code = some "ENOTFOUND" then (0, "DNS resolution failed")
        else if err.code = some "ECONNREFUSED" then (0, "Connection refused")
        else (0, err.message)
    { url := w.url, name := jsOr w.name w.url, status := "down",
      statusCode := classified.1, responseTime := elapsed,
      message := classified.2 }

/-! ## Azure file-share monitor (class `AzureFileMonitor`) -/

/-- The recursive count/timestamp summary for one directory subtree. -/
structure Aggregate where
  count : Nat
  oldestFile : Option Nat
  newestFile : Option Nat
deriving DecidableEq

/-- The aggregate an empty directory yields. -/
def emptyAgg : Aggregate := { count := 0, oldestFile := none, newestFile := none }

/-- The oldest-timestamp update of `countFilesRecursively`:
`if (incoming && (!running || incoming < running)) running = incoming`. -/
def optMinJS (running incoming : Option Nat) : Option Nat :=
  match incoming with
  | none => running
  | some t =>
    match running with
    | none => some t
    | some o => if t < o then some t else some o

/-- The newest-timestamp update of `countFilesRecursively`:
`if (incoming && (!running || incoming > running)) running = incoming`. -/
def optMaxJS (running incoming : Option Nat) : Option Nat :=
  match incoming with
  | none => running
  | some t =>
    match running with
    | none => some t
    | some o => if t > o then some t else some o

/-- Merging a subdirectory's `DirectoryAggregate` into the running one
(lines 140-149 of the monitor): sum the counts, keep the smaller oldest
and the larger newest timestamp, treating null as absent. -/
def mergeAgg (a b : Aggregate) : Aggregate :=
  { count := a.count + b.count,
    oldestFile := optMinJS a.oldestFile b.oldestFile,
    newestFile := optMaxJS a.newestFile b.newestFile }

/-- The contribution of one file entry: the count is incremented
unconditionally; the timestamps are taken from `getProperties` when that
call succeeds and are absent when it fails (the failure is logged and
ignored). -/
def fileAgg (props : Except String Nat) : Aggregate :=
  match props with
  | Except.ok t => { count := 1, oldestFile := some t, newestFile := some t }
  | Except.error _ => { count := 1, oldestFile := none, newestFile := none }

/-- One entry produced by `listFilesAndDirectories`: a file (with the
outcome of its `getProperties` call), a subdirectory whose own listing
succeeds with the given entries, or a subdirectory whose listing throws. -/
inductive FSItem : Type where
  | file (props : Except String Nat)
  | dirOk (items : List FSItem)
  | dirFail (msg : String)

/-- The loop body of `countFilesRecursively` over the listed entries,
threading the mutable `(fileCount, oldestFile, newestFile)` accumulator:
files contribute `fileAgg`, subdirectories are recursed into and merged,
and a listing failure inside a subdirectory is rethrown, aborting the
enclosing traversal. -/
def countItems : List FSItem → Aggregate → Except String Aggregate
  | [], acc => Except.ok acc
  | FSItem.file props :: rest, acc => countItems rest (mergeAgg acc (fileAgg props))
  | FSItem.dirFail e :: _, _ => Except.error e
  | FSItem.dirOk items :: rest, acc =>
    match countItems items emptyAgg with
    | Except.error e => Except.error e
    | Except.ok sub => countItems rest (mergeAgg acc sub)

/-- Embedding of `AzureFileMonitor.countFilesRecursively` on a directory handle whose
`listFilesAndDirectories` call either yields a list of entries or throws:
processes the entries starting from the empty accumulator; a listing
failure is rethrown. -/
def countFilesRecursively : Except String (List FSItem) → Except String Aggregate
  | Except.error e => Except.error e
  | Except.ok items => countItems items emptyAgg

/-- A configured file-storage target (`config.azureFileStorages` entry).
`credential` is an opaque object, so only its presence matters. -/
structure Storage where
  accountName : Option String
  shareName : String
  name : Option String
  sasUrl : Option String
  credential : Option Unit
  directories : Option (List String)
deriving DecidableEq

/-- One value of the `directoryBreakdown` object: a per-directory
aggregate `{count, oldestFileDate, newestFileDate}` (dates as timestamps,
null when absent) or `{error: msg}` when that directory's traversal threw. -/
inductive DirEntry : Type where
  | agg (count : Nat) (oldestFileDate newestFileDate : Option Nat)
  | err (msg : String)
deriving DecidableEq

/-- The result record built by `checkFileStorage` (wall-clock `timestamp`
omitted). -/
structure FSResult where
  accountName : Option String
  shareName : String
  name : String
  status : String
  fileCount : Nat
  message : String
  directoryBreakdown : Option (List (String × DirEntry))
deriving DecidableEq

/-- The observable remote state of the target share: whether the share
exists, and for every directory path the outcome of listing it (the share
root is the path `""`).  A listed subdirectory's own subtree is carried
inside the `FSItem` entries. -/
structure ShareWorld where
  shareExists : Bool
  listing : String → Except String (List FSItem)

/-- The display name `storage.name || accountName/shareName`. -/
def storageDisplayName (s : Storage) : String :=
  jsOr s.name (jsShow s.accountName ++ "/" ++ s.shareName)

/-- The error result record shared by the catch paths of
`checkFileStorage`: status `error`, fileCount 0, the given message, no
breakdown. -/
def storageErrorResult (s : Storage) (msg : String) : FSResult :=
  { accountName := s.accountName, shareName := s.shareName,
    name := storageDisplayName s, status := "error", fileCount := 0,
    message := msg, directoryBreakdown := none }

/-- The `directoryBreakdown` entry recorded for one requested directory:
its aggregate on success, `{error: msg}` on failure. -/
def dirEntryOf : Except String Aggregate → DirEntry
  | Except.ok a => DirEntry.agg a.count a.oldestFile a.newestFile
  | Except.error e => DirEntry.err e

/-- The per-directory loop of `checkFileStorage` over the explicit
`directories` list: each directory is traversed inside its own try/catch;
on success its count is added to the running `fileCount` and its aggregate
recorded, on failure an `{error}` entry is recorded and the loop
continues. -/
def dirLoop (w : ShareWorld) : List String → Nat → List (String × DirEntry) →
    Nat × List (String × DirEntry)
  | [], fileCount, results => (fileCount, results)
  | d :: rest, fileCount, results =>
    match countFilesRecursively (w.listing d) with
    | Except.ok a =>
      dirLoop w rest (fileCount + a.count)
        (objSet results d (DirEntry.agg a.count a.oldestFile a.newestFile))
    | Except.error e =>
      dirLoop w rest fileCount (objSet results d (DirEntry.err e))

/-- The dispatch condition `storage.directories && storage.directories.length > 0`. -/
def dirsTruthy (s : Storage) : Bool :=
  match s.directories with
  | none => false
  | some l => decide (0 < l.length)

/-- The default branch of `checkFileStorage`: traverse once from the share
root; a traversal failure is caught by the enclosing try and becomes an
error result with the thrown message. -/
def checkRootOnly (s : Storage) (w : ShareWorld) : FSResult :=
  match countFilesRecursively (w.listing "") with
  | Except.ok a =>
    { accountName := s.accountName, shareName := s.shareName,
      name := storageDisplayName s, status := "ok", fileCount := a.count,
      message := toString a.count ++ " files found", directoryBreakdown := none }
  | Except.error e => storageErrorResult s e

/-- Embedding of `AzureFileMonitor.checkFileStorage`: with neither a truthy `sasUrl`
nor a `credential` the body throws and the outer catch returns an error
result; otherwise the share handle is resolved (both access modes reach
the same share, so the model keeps a single world), existence is checked,
and the explicit-directories loop or the root traversal runs.  The
function is total: its whole body sits inside try/catch. -/
def checkFileStorage (s : Storage) (w : ShareWorld) : FSResult :=
  if jsTruthyS s.sasUrl || s.credential.isSome then
    if !w.shareExists then
      { accountName := s.accountName, shareName := s.shareName,
        name := storageDisplayName s, status := "error", fileCount := 0,
        message := "Share does not exist", directoryBreakdown := none }
    else
      match s.directories with
      | some ds =>
        if 0 < ds.length then
          let r := dirLoop w ds 0 []
          { accountName := s.accountName, shareName := s.shareName,
            name := storageDisplayName s, status := "ok", fileCount := r.1,
            message := toString r.1 ++ " files found across " ++
              toString ds.length ++ " directories",
            directoryBreakdown := some r.2 }
        else checkRootOnly s w
      | none => checkRootOnly s w
  else
    storageErrorResult s "Either sasUrl or credential must be provided"

/-! ## The per-cycle fan-out (`checkAll` of both monitors) -/

/-- The key under which `WebsiteMonitor.checkAll` stores a website's
result: `results[website.url]`. -/
def websiteKey (w : Website) : String := w.url

/-- The key under which `AzureFileMonitor.checkAll` stores a storage's
result: `accountName/shareName` when `accountName` is truthy, else
`storage.name || storage.sasUrl`. -/
def storeKey (s : Storage) : String :=
  if jsTruthyS s.accountName then jsShow s.accountName ++ "/" ++ s.shareName
  else jsOr s.name (jsShow s.sasUrl)

/-- The orchestration pattern of both `checkAll` methods: one task per
target writing its result under the target's key into a shared object,
then `await Promise.all`.  The task is a possibly-rejecting computation;
a rejected task makes `Promise.all` reject, so `checkAll` itself throws
and no result object is returned.  (The model runs tasks in listing
order; with pure tasks and unique keys the final object does not depend
on completion order.) -/
def runCycleTasks {α β : Type} (key : α → String) (task : α → Except String β) :
    List α → List (String × β) → Except String (List (String × β))
  | [], results => Except.ok results
  | x :: rest, results =>
    match task x with
    | Except.error e => Except.error e
    | Except.ok r => runCycleTasks key task rest (objSet results (key x) r)

/-- Embedding of `WebsiteMonitor.checkAll`: the per-target task awaits `checkWebsite`,
which never rejects, and stores the result under the target's URL. -/
def checkAllWebsites (ws : List Website)
    (outcome : Website → Except AxiosError HttpResponse)
    (elapsed : Website → Nat) : Except String (List (String × WResult)) :=
  runCycleTasks websiteKey
    (fun w => Except.ok (checkWebsite w (outcome w) (elapsed w))) ws []

/-- Embedding of `AzureFileMonitor.checkAll`: the per-target task awaits
`checkFileStorage`, which never rejects, and stores the result under the
storage key. -/
def checkAllStorages (ss : List Storage) (world : Storage → ShareWorld) :
    Except String (List (String × FSResult)) :=
  runCycleTasks storeKey
    (fun s => Except.ok (checkFileStorage s (world s))) ss []

/-! ## Lemmas about the result-object operations -/

theorem objSet_of_not_mem {β : Type} (m : List (String × β)) (k : String) (v : β)
    (h : k ∉ m.map Prod.fst) : objSet m k v = m ++ [(k, v)] := by
  induction m with
  | nil => rfl
  | cons p rest ih =>
    simp only [List.map_cons, List.mem_cons, not_or] at h
    obtain ⟨h1, h2⟩ := h
    obtain ⟨k', v'⟩ := p
    simp only [objSet]
    rw [if_neg (fun he => h1 he.symm)]
    simp [ih h2]

theorem runCycleTasks_ok {α β : Type} (key : α → String) (f : α → β) :
    ∀ (xs : List α) (init : List (String × β)),
      runCycleTasks key (fun x => Except.ok (f x)) xs init =
        Except.ok (xs.foldl (fun m x => objSet m (key x) (f x)) init) := by
  intro xs
  induction xs with
  | nil => intro init; rfl
  | cons x rest ih =>
    intro init
    simp only [runCycleTasks, List.foldl]
    exact ih _

theorem foldl_objSet_append {α β : Type} (key : α → String) (f : α → β) :
    ∀ (xs : List α) (init : List (String × β)),
      (xs.map key).Nodup → (∀ x ∈ xs, key x ∉ init.map Prod.fst) →
      xs.foldl (fun m x => objSet m (key x) (f x)) init =
        init ++ xs.map (fun x => (key x, f x)) := by
  intro xs
  induction xs with
  | nil => intro init _ _; simp
  | cons x rest ih =>
    intro init hnd hdisj
    simp only [List.map_cons, List.nodup_cons] at hnd
    obtain ⟨hx, hnd'⟩ := hnd
    have hinit : key x ∉ init.map Prod.fst := hdisj x (by simp)
    simp only [List.foldl]
    rw [objSet_of_not_mem _ _ _ hinit]
    rw [ih (init ++ [(key x, f x)]) hnd' ?_]
    · simp
    · intro y hy
      simp only [List.map_append, List.mem_append, List.map_cons, List.map_nil,
        List.mem_singleton, not_or]
      refine ⟨hdisj y (List.mem_cons_of_mem x hy), ?_⟩
      intro he
      exact hx (he ▸ List.mem_map_of_mem key hy)

theorem lookup_map_key {α β : Type} (key : α → String) (f : α → β) :
    ∀ (xs : List α) (x : α), x ∈ xs → (xs.map key).Nodup →
      List.lookup (key x) (xs.map fun y => (key y, f y)) = some (f x) := by
  intro xs
  induction xs with
  | nil => intro x hx; cases hx
  | cons y rest ih =>
    intro x hx hnd
    simp only [List.map_cons, List.nodup_cons] at hnd
    obtain ⟨hy, hnd'⟩ := hnd
    rcases List.mem_cons.mp hx with h | h
    · subst h
      simp [List.lookup]
    · have hne : (key x == key y) = false := by
        rw [beq_eq_false_iff_ne]
        intro he
        exact hy (he ▸ List.mem_map_of_mem key h)
      simp only [List.map_cons, List.lookup, hne]
      exact ih x h hnd'

/-! ## Claims about the cycle fan-out -/

/-- C1: running a cycle returns result maps with exactly one entry per
configured target, keyed by the website URL resp. the storage key
`accountName/shareName` (falling back to `name || sasUrl`), provided the
keys of the configured targets are pairwise distinct (the spec's data
model declares them unique). -/
theorem c1_one_entry_per_target
    (ws : List Website) (outcome : Website → Except AxiosError HttpResponse)
    (elapsed : Website → Nat) (ss : List Storage) (world : Storage → ShareWorld)
    (hw : (ws.map websiteKey).Nodup) (hs : (ss.map storeKey).Nodup) :
    (∃ mw, checkAllWebsites ws outcome elapsed = Except.ok mw ∧
      mw.length = ws.length ∧
      ∀ w ∈ ws, List.lookup (websiteKey w) mw =
        some (checkWebsite w (outcome w) (elapsed w))) ∧
    (∃ ms, checkAllStorages ss world = Except.ok ms ∧
      ms.length = ss.length ∧
      ∀ s ∈ ss, List.lookup (storeKey s) ms =
        some (checkFileStorage s (world s))) := by
  constructor
  · refine ⟨ws.map fun w => (websiteKey w, checkWebsite w (outcome w) (elapsed w)),
      ?_, by simp, ?_⟩
    · rw [checkAllWebsites, runCycleTasks_ok websiteKey
        (fun w => checkWebsite w (outcome w) (elapsed w)) ws []]
      rw [foldl_objSet_append _ _ ws [] hw (by simp)]
      simp
    · intro w hwmem
      exact lookup_map_key websiteKey _ ws w hwmem hw
  · refine ⟨ss.map fun s => (storeKey s, checkFileStorage s (world s)), ?_, by simp, ?_⟩
    · rw [checkAllStorages, runCycleTasks_ok storeKey
        (fun s => checkFileStorage s (world s)) ss []]
      rw [foldl_objSet_append _ _ ss [] hs (by simp)]
      simp
    · intro s hsmem
      exact lookup_map_key storeKey _ ss s hsmem hs

/-- Demo inputs for the cycle-level witnesses. -/
def demoSiteA : Website := { url := "https://a.example", name := none }

def demoSiteB : Website := { url := "https://b.example", name := some "B" }

def demoStorage : Storage :=
  { accountName := some "acct", shareName := "share", name := none,
    sasUrl := some "https://sas.example", credential := none, directories := none }

def demoOutcome : Website → Except AxiosError HttpResponse :=
  fun _ => axiosGetResponse { status := 200, statusText := "OK" }

def demoWorld : Storage → ShareWorld :=
  fun _ => { shareExists := true, listing := fun _ => Except.ok [] }

/-- Witness for C1 at a concrete two-website, one-storage configuration. -/
theorem c1_one_entry_per_target_witness :
    ([demoSiteA, demoSiteB].map websiteKey).Nodup ∧
    ([demoStorage].map storeKey).Nodup ∧
    ((∃ mw, checkAllWebsites [demoSiteA, demoSiteB] demoOutcome (fun _ => 10) =
        Except.ok mw ∧ mw.length = [demoSiteA, demoSiteB].length ∧
        ∀ w ∈ [demoSiteA, demoSiteB], List.lookup (websiteKey w) mw =
          some (checkWebsite w (demoOutcome w) 10)) ∧
      (∃ ms, checkAllStorages [demoStorage] demoWorld = Except.ok ms ∧
        ms.length = [demoStorage].length ∧
        ∀ s ∈ [demoStorage], List.lookup (storeKey s) ms =
          some (checkFileStorage s (demoWorld s)))) :=
  ⟨by decide, by decide,
    c1_one_entry_per_target [demoSiteA, demoSiteB] demoOutcome (fun _ => 10)
      [demoStorage] demoWorld (by decide) (by decide)⟩

/-- C2 as stated is false: the orchestration boundary (`checkAll`'s
map + `Promise.all`) performs no catching of its own, so a per-target task
that rejects makes the whole cycle reject instead of being converted to a
generic error `CheckResult` keyed by that target. -/
theorem c2_counterexample :
    runCycleTasks websiteKey
      (fun _ => (Except.error "boom" : Except String WResult))
      [demoSiteA] [] = Except.error "boom" := rfl

/-- C2 (amended): the probes themselves catch every failure and always
return a `CheckResult`, so with the actual per-target tasks no error ever
escapes either `checkAll` entry point and the cycle always completes with
a result map; the orchestration boundary itself adds no catching, so this
totality of the probes is the only thing preventing a task failure from
aborting the cycle. -/
theorem c2_no_error_escapes_cycle
    (ws : List Website) (outcome : Website → Except AxiosError HttpResponse)
    (elapsed : Website → Nat) (ss : List Storage) (world : Storage → ShareWorld) :
    (∃ mw, checkAllWebsites ws outcome elapsed = Except.ok mw) ∧
    (∃ ms, checkAllStorages ss world = Except.ok ms) :=
  ⟨⟨_, runCycleTasks_ok websiteKey
      (fun w => checkWebsite w (outcome w) (elapsed w)) ws []⟩,
   ⟨_, runCycleTasks_ok storeKey
      (fun s => checkFileStorage s (world s)) ss []⟩⟩

/-! ## Claims about the endpoint probe -/

/-- C3: any HTTP response with status strictly below 500 (4xx included) is
a successful probe outcome: status `up`, the response's status code, the
elapsed time, and message `OK - <code>`. -/
theorem c3_up_below_500 (w : Website) (resp : HttpResponse) (elapsed : Nat)
    (h : resp.status < 500) :
    checkWebsite w (axiosGetResponse resp) elapsed =
      { url := w.url, name := jsOr w.name w.url, status := "up",
        statusCode := resp.status, responseTime := elapsed,
        message := "OK - " ++ toString resp.status } := by
  simp [checkWebsite, axiosGetResponse, validateStatus, h]

/-- Witness for C3: HTTP 200 in 120 ms yields an `up` result with message
"OK - 200", as in the spec's example. -/
theorem c3_up_below_500_witness :
    (200 : Nat) < 500 ∧
    checkWebsite demoSiteA (axiosGetResponse { status := 200, statusText := "OK" }) 120 =
      { url := "https://a.example", name := "https://a.example", status := "up",
        statusCode := 200, responseTime := 120, message := "OK - 200" } :=
  ⟨by decide,
    (c3_up_below_500 demoSiteA { status := 200, statusText := "OK" } 120 (by decide)).trans
      (by decide)⟩

/-- C4: the endpoint probe is total (its model returns a `WResult` for
every axios outcome, mirroring the catch-all try/catch) and every failure
is classified by exactly one branch of the catch block: a remote error
response (capturing its code and reason), a timeout, a name-resolution
failure, a connection refusal, or the generic error message, with
`statusCode` the remote code when a response was received and 0
otherwise. -/
theorem c4_failure_classification (w : Website)
    (r : Except AxiosError HttpResponse) (elapsed : Nat) :
    (∃ resp, r = Except.ok resp ∧ (checkWebsite w r elapsed).status = "up") ∨
    (∃ err, r = Except.error err ∧ (checkWebsite w r elapsed).status = "down" ∧
      ((∃ resp, err.response = some resp ∧
          (checkWebsite w r elapsed).statusCode = resp.status ∧
          (checkWebsite w r elapsed).message =
            "HTTP " ++ toString resp.status ++ " - " ++ resp.statusText) ∨
       (err.response = none ∧ (checkWebsite w r elapsed).statusCode = 0 ∧
         ((err.code = some "ECONNABORTED" ∧
            (checkWebsite w r elapsed).message = "Request timeout") ∨
          (err.code ≠ some "ECONNABORTED" ∧ err.code = some "ENOTFOUND" ∧
            (checkWebsite w r elapsed).message = "DNS resolution failed") ∨
          (err.code ≠ some "ECONNABORTED" ∧ err.code ≠ some "ENOTFOUND" ∧
            err.code = some "ECONNREFUSED" ∧
            (checkWebsite w r elapsed).message = "Connection refused") ∨
          (err.code ≠ some "ECONNABORTED" ∧ err.code ≠ some "ENOTFOUND" ∧
            err.code ≠ some "ECONNREFUSED" ∧
            (checkWebsite w r elapsed).message = err.message))))) := by
  cases r with
  | ok resp => exact Or.inl ⟨resp, rfl, rfl⟩
  | error err =>
    refine Or.inr ⟨err, rfl, rfl, ?_⟩
    rcases hresp : err.response with _ | resp
    · refine Or.inr ⟨rfl, ?_, ?_⟩
      · by_cases h1 : err.code = some "ECONNABORTED" <;>
          by_cases h2 : err.code = some "ENOTFOUND" <;>
          by_cases h3 : err.code = some "ECONNREFUSED" <;>
          simp [checkWebsite, hresp, h1, h2, h3]
      · by_cases h1 : err.code = some "ECONNABORTED"
        · exact Or.inl ⟨h1, by simp [checkWebsite, hresp, h1]⟩
        · by_cases h2 : err.code = some "ENOTFOUND"
          · exact Or.inr (Or.inl ⟨h1, h2, by simp [checkWebsite, hresp, h1, h2]⟩)
          · by_cases h3 : err.code = some "ECONNREFUSED"
            · exact Or.inr (Or.inr (Or.inl
                ⟨h1, h2, h3, by simp [checkWebsite, hresp, h1, h2, h3]⟩))
            · exact Or.inr (Or.inr (Or.inr
                ⟨h1, h2, h3, by simp [checkWebsite, hresp, h1, h2, h3]⟩))
    · exact Or.inl ⟨resp, rfl, by simp [checkWebsite, hresp], by simp [checkWebsite, hresp]⟩

/-! ## Lemmas about the recursive traversal -/

/-- Specification-level number of file entries in a listed subtree. -/
def totalFiles : List FSItem → Nat
  | [] => 0
  | FSItem.file _ :: rest => 1 + totalFiles rest
  | FSItem.dirFail _ :: rest => totalFiles rest
  | FSItem.dirOk items :: rest => totalFiles items + totalFiles rest

/-- Every directory listing in the subtree succeeds (no `dirFail`
anywhere). -/
def itemsOk : List FSItem → Bool
  | [] => true
  | FSItem.file _ :: rest => itemsOk rest
  | FSItem.dirFail _ :: _ => false
  | FSItem.dirOk items :: rest => itemsOk items && itemsOk rest

theorem totalFiles_cons (x : FSItem) (rest : List FSItem) :
    totalFiles (x :: rest) = totalFiles [x] + totalFiles rest := by
  cases x <;> simp [totalFiles]

theorem totalFiles_eq_sum (l : List FSItem) :
    totalFiles l = (l.map fun x => totalFiles [x]).sum := by
  induction l with
  | nil => simp [totalFiles]
  | cons x rest ih => rw [totalFiles_cons, List.map_cons, List.sum_cons, ih]

theorem totalFiles_perm {l l' : List FSItem} (hp : l.Perm l') :
    totalFiles l = totalFiles l' := by
  rw [totalFiles_eq_sum, totalFiles_eq_sum]
  exact (hp.map _).sum_eq

theorem itemsOk_cons (x : FSItem) (rest : List FSItem) :
    itemsOk (x :: rest) = (itemsOk [x] && itemsOk rest) := by
  cases x <;> simp [itemsOk]

theorem itemsOk_iff (l : List FSItem) :
    itemsOk l = true ↔ ∀ x ∈ l, itemsOk [x] = true := by
  induction l with
  | nil => simp [itemsOk]
  | cons x rest ih =>
    rw [itemsOk_cons, Bool.and_eq_true, ih, List.forall_mem_cons]

theorem itemsOk_perm {l l' : List FSItem} (hp : l.Perm l')
    (h : itemsOk l = true) : itemsOk l' = true := by
  rw [itemsOk_iff] at h ⊢
  intro x hx
  exact h x (hp.symm.mem_iff.mp hx)

/-- When no listing in the subtree fails, the traversal loop succeeds and
adds exactly the number of file entries of the subtree to the running
count. -/
theorem countItems_ok_count :
    ∀ (items : List FSItem) (acc : Aggregate), itemsOk items = true →
      ∃ a, countItems items acc = Except.ok a ∧
        a.count = acc.count + totalFiles items := by
  intro items acc
  induction items, acc using countItems.induct with
  | case1 acc =>
    intro _
    refine ⟨acc, ?_, by simp [totalFiles]⟩
    rw [countItems]
  | case2 props rest acc ih =>
    intro h
    rw [itemsOk] at h
    obtain ⟨a, ha, hc⟩ := ih h
    refine ⟨a, ?_, ?_⟩
    · rw [countItems]
      exact ha
    · have hf : (fileAgg props).count = 1 := by cases props <;> rfl
      have hm : (mergeAgg acc (fileAgg props)).count = acc.count + 1 := by
        rw [mergeAgg, hf]
      rw [hc, hm, totalFiles]
      omega
  | case3 e tail acc =>
    intro h
    rw [itemsOk] at h
    cases h
  | case4 items rest acc e heq ih1 =>
    intro h
    rw [itemsOk, Bool.and_eq_true] at h
    obtain ⟨a, ha, _⟩ := ih1 h.1
    rw [ha] at heq
    cases heq
  | case5 items rest acc sub heq ih1 ih2 =>
    intro h
    rw [itemsOk, Bool.and_eq_true] at h
    obtain ⟨a, ha, hac⟩ := ih1 h.1
    rw [ha] at heq
    obtain rfl : sub = a := (Except.ok.injEq _ _).mp heq.symm
    obtain ⟨b, hb, hbc⟩ := ih2 h.2
    refine ⟨b, ?_, ?_⟩
    · rw [countItems, ha]
      exact hb
    · have hm : (mergeAgg acc sub).count = acc.count + sub.count := rfl
      rw [hbc, hm, totalFiles, hac]
      simp [emptyAgg]
      omega

/-- C6: on a subtree all of whose listings succeed, the traversal returns
a count equal to the number of file entries, a quantity invariant under
reordering of the listing results; the empty directory yields
`{count: 0, oldestFile: null, newestFile: null}`. -/
theorem c6_traversal_count (items items' : List FSItem)
    (hok : itemsOk items = true) (hp : items.Perm items') :
    (∃ a, countFilesRecursively (Except.ok items) = Except.ok a ∧
      a.count = totalFiles items) ∧
    (∃ a', countFilesRecursively (Except.ok items') = Except.ok a' ∧
      a'.count = totalFiles items) ∧
    countFilesRecursively (Except.ok ([] : List FSItem)) = Except.ok emptyAgg := by
  refine ⟨?_, ?_, ?_⟩
  · obtain ⟨a, ha, hc⟩ := countItems_ok_count items emptyAgg hok
    exact ⟨a, by simpa [countFilesRecursively] using ha,
      by simpa [emptyAgg] using hc⟩
  · obtain ⟨a, ha, hc⟩ := countItems_ok_count items' emptyAgg (itemsOk_perm hp hok)
    refine ⟨a, by simpa [countFilesRecursively] using ha, ?_⟩
    rw [totalFiles_perm hp]
    simpa [emptyAgg] using hc
  · simp [countFilesRecursively, countItems]

/-- Demo subtree for the C6 witness: three files at two nesting levels,
one of them with a failing property fetch. -/
def c6Items : List FSItem :=
  [FSItem.file (Except.ok 5),
   FSItem.dirOk [FSItem.file (Except.ok 2), FSItem.file (Except.error "EACCES")],
   FSItem.file (Except.ok 9)]

/-- The same subtree with the first two listing results swapped. -/
def c6Items' : List FSItem :=
  [FSItem.dirOk [FSItem.file (Except.ok 2), FSItem.file (Except.error "EACCES")],
   FSItem.file (Except.ok 5),
   FSItem.file (Except.ok 9)]

/-- Witness for C6 at a concrete 4-file tree and a reordering of it. -/
theorem c6_traversal_count_witness :
    itemsOk c6Items = true ∧ c6Items.Perm c6Items' ∧
    ((∃ a, countFilesRecursively (Except.ok c6Items) = Except.ok a ∧
        a.count = totalFiles c6Items) ∧
      (∃ a', countFilesRecursively (Except.ok c6Items') = Except.ok a' ∧
        a'.count = totalFiles c6Items) ∧
      countFilesRecursively (Except.ok ([] : List FSItem)) = Except.ok emptyAgg) := by
  have hok : itemsOk c6Items = true := by simp [c6Items, itemsOk]
  have hperm : c6Items.Perm c6Items' := by
    unfold c6Items c6Items'
    exact List.Perm.swap _ _ _
  exact ⟨hok, hperm, c6_traversal_count c6Items c6Items' hok hperm⟩

/-! ## Lemmas about the aggregate-merge operation -/

theorem optMinJS_none_left (b : Option Nat) : optMinJS none b = b := by
  cases b <;> rfl

theorem optMinJS_none_right (a : Option Nat) : optMinJS a none = a := rfl

theorem optMinJS_some_some (x y : Nat) :
    optMinJS (some x) (some y) = some (min x y) := by
  simp only [optMinJS]
  split_ifs <;> simp only [Option.some.injEq] <;> omega

theorem optMaxJS_none_left (b : Option Nat) : optMaxJS none b = b := by
  cases b <;> rfl

theorem optMaxJS_none_right (a : Option Nat) : optMaxJS a none = a := rfl

theorem optMaxJS_some_some (x y : Nat) :
    optMaxJS (some x) (some y) = some (max x y) := by
  simp only [optMaxJS]
  split_ifs <;> simp only [Option.some.injEq] <;> omega

theorem optMinJS_comm (a b : Option Nat) : optMinJS a b = optMinJS b a := by
  rcases a with _ | x <;> rcases b with _ | y <;>
    simp only [optMinJS_none_left, optMinJS_none_right, optMinJS_some_some,
      Option.some.injEq] <;> omega

theorem optMaxJS_comm (a b : Option Nat) : optMaxJS a b = optMaxJS b a := by
  rcases a with _ | x <;> rcases b with _ | y <;>
    simp only [optMaxJS_none_left, optMaxJS_none_right, optMaxJS_some_some,
      Option.some.injEq] <;> omega

theorem optMinJS_assoc (a b c : Option Nat) :
    optMinJS (optMinJS a b) c = optMinJS a (optMinJS b c) := by
  rcases a with _ | x <;> rcases b with _ | y <;> rcases c with _ | z <;>
    simp only [optMinJS_none_left, optMinJS_none_right, optMinJS_some_some,
      Option.some.injEq] <;> omega

theorem optMaxJS_assoc (a b c : Option Nat) :
    optMaxJS (optMaxJS a b) c = optMaxJS a (optMaxJS b c) := by
  rcases a with _ | x <;> rcases b with _ | y <;> rcases c with _ | z <;>
    simp only [optMaxJS_none_left, optMaxJS_none_right, optMaxJS_some_some,
      Option.some.injEq] <;> omega

/-- C7: the aggregate-merge operation (sum of counts, min of oldest, max
of newest, null absent) is commutative and associative, and the empty
aggregate is a two-sided identity for it. -/
theorem c7_merge_comm_assoc_identity :
    (∀ a b : Aggregate, mergeAgg a b = mergeAgg b a) ∧
    (∀ a b c : Aggregate, mergeAgg (mergeAgg a b) c = mergeAgg a (mergeAgg b c)) ∧
    (∀ a : Aggregate, mergeAgg emptyAgg a = a ∧ mergeAgg a emptyAgg = a) := by
  refine ⟨?_, ?_, ?_⟩
  · intro a b
    simp only [mergeAgg, Aggregate.mk.injEq]
    exact ⟨Nat.add_comm _ _, optMinJS_comm _ _, optMaxJS_comm _ _⟩
  · intro a b c
    simp only [mergeAgg, Aggregate.mk.injEq]
    exact ⟨Nat.add_assoc _ _ _, optMinJS_assoc _ _ _, optMaxJS_assoc _ _ _⟩
  · intro a
    obtain ⟨n, o, ne⟩ := a
    constructor <;>
      simp [mergeAgg, emptyAgg, optMinJS_none_left, optMinJS_none_right,
        optMaxJS_none_left, optMaxJS_none_right]

/-! ## The aggregate invariant -/

/-- The shape invariant of a traversal aggregate: the two timestamps are
absent together, and when present the oldest does not exceed the newest. -/
def aggInvariant (a : Aggregate) : Prop :=
  (a.oldestFile = none ↔ a.newestFile = none) ∧
  (∀ o n, a.oldestFile = some o → a.newestFile = some n → o ≤ n)

theorem aggInvariant_empty : aggInvariant emptyAgg := by
  constructor <;> simp [emptyAgg]

theorem aggInvariant_fileAgg (p : Except String Nat) : aggInvariant (fileAgg p) := by
  cases p with
  | ok t =>
    refine ⟨by simp [fileAgg], ?_⟩
    intro o n ho hn
    simp only [fileAgg, Option.some.injEq] at ho hn
    omega
  | error e =>
    exact ⟨by simp [fileAgg], by intro o n ho _; simp [fileAgg] at ho⟩

theorem aggInvariant_merge {a b : Aggregate} (ha : aggInvariant a)
    (hb : aggInvariant b) : aggInvariant (mergeAgg a b) := by
  obtain ⟨ha1, ha2⟩ := ha
  obtain ⟨hb1, hb2⟩ := hb
  rcases hoa : a.oldestFile with _ | xa <;> rcases hna : a.newestFile with _ | ya <;>
    rcases hob : b.oldestFile with _ | xb <;> rcases hnb : b.newestFile with _ | yb <;>
    simp_all [mergeAgg, aggInvariant, optMinJS_none_left, optMinJS_none_right,
      optMinJS_some_some, optMaxJS_none_left, optMaxJS_none_right,
      optMaxJS_some_some]

/-- The traversal loop preserves the aggregate invariant. -/
theorem countItems_invariant :
    ∀ (items : List FSItem) (acc : Aggregate), aggInvariant acc →
      ∀ a, countItems items acc = Except.ok a → aggInvariant a := by
  intro items acc
  induction items, acc using countItems.induct with
  | case1 acc =>
    intro h a ha
    rw [countItems] at ha
    obtain rfl : acc = a := (Except.ok.injEq _ _).mp ha
    exact h
  | case2 props rest acc ih =>
    intro h a ha
    rw [countItems] at ha
    exact ih (aggInvariant_merge h (aggInvariant_fileAgg props)) a ha
  | case3 e tail acc =>
    intro h a ha
    rw [countItems] at ha
    cases ha
  | case4 items rest acc e heq ih1 =>
    intro h a ha
    rw [countItems, heq] at ha
    cases ha
  | case5 items rest acc sub heq ih1 ih2 =>
    intro h a ha
    rw [countItems, heq] at ha
    have hsub : aggInvariant sub := ih1 aggInvariant_empty sub heq
    exact ih2 (aggInvariant_merge h hsub) a ha

/-- C10: every aggregate returned by the traversal has its two timestamps
absent together and ordered when present; the count can nevertheless be
positive with both timestamps absent, because a failed per-file property
fetch still counts the file without contributing a timestamp. -/
theorem c10_aggregate_invariant (items : List FSItem) (a : Aggregate)
    (h : countFilesRecursively (Except.ok items) = Except.ok a) :
    ((a.oldestFile = none ↔ a.newestFile = none) ∧
      (∀ o n, a.oldestFile = some o → a.newestFile = some n → o ≤ n)) ∧
    (∃ b, countFilesRecursively (Except.ok [FSItem.file (Except.error "EACCES")]) =
        Except.ok b ∧ 0 < b.count ∧ b.oldestFile = none ∧ b.newestFile = none) := by
  constructor
  · exact countItems_invariant items emptyAgg aggInvariant_empty a
      (by simpa [countFilesRecursively] using h)
  · refine ⟨{ count := 1, oldestFile := none, newestFile := none },
      ?_, by decide, rfl, rfl⟩
    simp [countFilesRecursively, countItems, mergeAgg, fileAgg, emptyAgg,
      optMinJS, optMaxJS]

/-- Witness for C10 at a concrete one-file tree. -/
theorem c10_aggregate_invariant_witness :
    countFilesRecursively (Except.ok [FSItem.file (Except.ok 7)]) =
      Except.ok { count := 1, oldestFile := some 7, newestFile := some 7 } ∧
    ((({ count := 1, oldestFile := some 7, newestFile := some 7 } : Aggregate).oldestFile
          = none ↔
        ({ count := 1, oldestFile := some 7, newestFile := some 7 } : Aggregate).newestFile
          = none) ∧
      (∀ o n,
        ({ count := 1, oldestFile := some 7, newestFile := some 7 } : Aggregate).oldestFile
            = some o →
          ({ count := 1, oldestFile := some 7, newestFile := some 7 } : Aggregate).newestFile
            = some n → o ≤ n)) ∧
    (∃ b, countFilesRecursively (Except.ok [FSItem.file (Except.error "EACCES")]) =
        Except.ok b ∧ 0 < b.count ∧ b.oldestFile = none ∧ b.newestFile = none) := by
  have h : countFilesRecursively (Except.ok [FSItem.file (Except.ok 7)]) =
      Except.ok { count := 1, oldestFile := some 7, newestFile := some 7 } := by
    simp [countFilesRecursively, countItems, mergeAgg, fileAgg, emptyAgg,
      optMinJS, optMaxJS]
  have hc := c10_aggregate_invariant [FSItem.file (Except.ok 7)]
    { count := 1, oldestFile := some 7, newestFile := some 7 } h
  exact ⟨h, hc.1, hc.2⟩

/-! ## Claims about the store probe -/

/-- C5: with neither a truthy `sasUrl` nor a `credential`, the store probe
returns the configuration-error result at once; the result is independent
of the remote world, so no network call is consulted. -/
theorem c5_missing_auth (s : Storage) (w w' : ShareWorld)
    (hsas : jsTruthyS s.sasUrl = false) (hcred : s.credential = none) :
    checkFileStorage s w =
      storageErrorResult s "Either sasUrl or credential must be provided" ∧
    checkFileStorage s w = checkFileStorage s w' := by
  have h : (jsTruthyS s.sasUrl || s.credential.isSome) = false := by
    rw [hsas, hcred]
    rfl
  constructor <;> simp [checkFileStorage, h]

/-- Demo storage without any access mode, and two observably different
remote worlds. -/
def c5Storage : Storage :=
  { accountName := some "acct", shareName := "share", name := none,
    sasUrl := none, credential := none, directories := some ["a"] }

def c5WorldA : ShareWorld := { shareExists := true, listing := fun _ => Except.ok [] }

def c5WorldB : ShareWorld :=
  { shareExists := false, listing := fun _ => Except.error "network down" }

/-- Witness for C5 at a concrete storage target with no access mode. -/
theorem c5_missing_auth_witness :
    jsTruthyS c5Storage.sasUrl = false ∧ c5Storage.credential = none ∧
    (checkFileStorage c5Storage c5WorldA =
        storageErrorResult c5Storage "Either sasUrl or credential must be provided" ∧
      checkFileStorage c5Storage c5WorldA = checkFileStorage c5Storage c5WorldB) :=
  ⟨rfl, rfl, c5_missing_auth c5Storage c5WorldA c5WorldB rfl rfl⟩

/-- Count contribution of one requested directory: its aggregate count
when its traversal succeeded, 0 when it failed. -/
def dirCount (w : ShareWorld) (d : String) : Nat :=
  match countFilesRecursively (w.listing d) with
  | Except.ok a => a.count
  | Except.error _ => 0

/-- The per-directory loop computes, independently per requested
directory, the running total of the successful counts and the ordered
breakdown entries. -/
theorem dirLoop_spec (w : ShareWorld) :
    ∀ (ds : List String) (fc : Nat) (res : List (String × DirEntry)),
      ds.Nodup → (∀ d ∈ ds, d ∉ res.map Prod.fst) →
      dirLoop w ds fc res =
        (fc + (ds.map (dirCount w)).sum,
          res ++ ds.map fun d =>
            (d, dirEntryOf (countFilesRecursively (w.listing d)))) := by
  intro ds
  induction ds with
  | nil => intro fc res _ _; simp [dirLoop]
  | cons d rest ih =>
    intro fc res hnd hdisj
    rw [List.nodup_cons] at hnd
    obtain ⟨hd, hnd'⟩ := hnd
    have hres : d ∉ res.map Prod.fst := hdisj d (by simp)
    cases hcd : countFilesRecursively (w.listing d) with
    | ok a =>
      simp only [dirLoop, hcd]
      rw [objSet_of_not_mem _ _ _ hres]
      rw [ih (fc + a.count)
        (res ++ [(d, DirEntry.agg a.count a.oldestFile a.newestFile)]) hnd' ?_]
      · simp [dirCount, dirEntryOf, hcd, Nat.add_assoc]
      · intro x hx
        simp only [List.map_append, List.mem_append, List.map_cons, List.map_nil,
          List.mem_singleton, not_or]
        exact ⟨hdisj x (List.mem_cons_of_mem d hx), fun he => hd (he ▸ hx)⟩
    | error e =>
      simp only [dirLoop, hcd]
      rw [objSet_of_not_mem _ _ _ hres]
      rw [ih fc (res ++ [(d, DirEntry.err e)]) hnd' ?_]
      · simp [dirCount, dirEntryOf, hcd]
      · intro x hx
        simp only [List.map_append, List.mem_append, List.map_cons, List.map_nil,
          List.mem_singleton, not_or]
        exact ⟨hdisj x (List.mem_cons_of_mem d hx), fun he => hd (he ▸ hx)⟩

/-- C8: with an explicit non-empty `directories` list (of distinct
names), every requested directory is traversed independently: the
breakdown records, per directory, either its aggregate or an `{error}`
entry, the probe still reports status `ok`, and `fileCount` is the sum of
the per-directory contributions with failed directories contributing 0. -/
theorem c8_directories_isolated (s : Storage) (w : ShareWorld) (ds : List String)
    (hauth : (jsTruthyS s.sasUrl || s.credential.isSome) = true)
    (hex : w.shareExists = true)
    (hds : s.directories = some ds) (hne : 0 < ds.length) (hnd : ds.Nodup) :
    (checkFileStorage s w).status = "ok" ∧
    (checkFileStorage s w).fileCount = (ds.map (dirCount w)).sum ∧
    (checkFileStorage s w).directoryBreakdown =
      some (ds.map fun d =>
        (d, dirEntryOf (countFilesRecursively (w.listing d)))) := by
  have hloop := dirLoop_spec w ds 0 [] hnd (by simp)
  unfold checkFileStorage
  rw [hauth, hex, hds]
  simp only [if_true, Bool.not_true, Bool.false_eq_true, if_false, if_pos hne, hloop]
  simp

/-- Demo storage with three requested directories and a world in which
the middle directory fails to list. -/
def c8Storage : Storage :=
  { accountName := some "acct", shareName := "share", name := none,
    sasUrl := some "https://sas.example", credential := none,
    directories := some ["a", "b", "c"] }

def c8World : ShareWorld :=
  { shareExists := true,
    listing := fun d =>
      if d = "a" then Except.ok [FSItem.file (Except.ok 3), FSItem.file (Except.ok 8)]
      else if d = "b" then Except.error "listing failed"
      else if d = "c" then Except.ok [FSItem.file (Except.ok 5)]
      else Except.ok [] }

/-- Witness for C8: of three requested directories the middle one fails;
the probe stays `ok` and sums the two successful counts. -/
theorem c8_directories_isolated_witness :
    (jsTruthyS c8Storage.sasUrl || c8Storage.credential.isSome) = true ∧
    c8World.shareExists = true ∧
    c8Storage.directories = some ["a", "b", "c"] ∧
    0 < (["a", "b", "c"] : List String).length ∧
    (["a", "b", "c"] : List String).Nodup ∧
    ((checkFileStorage c8Storage c8World).status = "ok" ∧
      (checkFileStorage c8Storage c8World).fileCount =
        ((["a", "b", "c"] : List String).map (dirCount c8World)).sum ∧
      (checkFileStorage c8Storage c8World).directoryBreakdown =
        some ((["a", "b", "c"] : List String).map fun d =>
          (d, dirEntryOf (countFilesRecursively (c8World.listing d))))) :=
  ⟨rfl, rfl, rfl, by decide, by decide,
    c8_directories_isolated c8Storage c8World ["a", "b", "c"] rfl rfl rfl
      (by decide) (by decide)⟩

/-- Demo storage with a non-empty `directories` list but no access mode. -/
def c9Storage : Storage :=
  { accountName := none, shareName := "share", name := none,
    sasUrl := none, credential := none, directories := some ["a"] }

def c9World : ShareWorld := { shareExists := true, listing := fun _ => Except.ok [] }

/-- C9 as stated is false: this target specifies a non-empty
`directories` list, yet its probe result (a configuration error) carries
no `directoryBreakdown` field. -/
theorem c9_counterexample :
    c9Storage.directories = some ["a"] ∧ dirsTruthy c9Storage = true ∧
    (checkFileStorage c9Storage c9World).directoryBreakdown = none :=
  ⟨rfl, rfl, rfl⟩

/-- C9 (amended): a probe result carries a `directoryBreakdown` field
exactly when the probe succeeded (status `ok`) and the target specified a
non-empty `directories` list; error results never carry a breakdown, and
successful root-scan results do not either. -/
theorem c9_breakdown_iff_ok_and_dirs (s : Storage) (w : ShareWorld) :
    (checkFileStorage s w).directoryBreakdown.isSome = true ↔
      ((checkFileStorage s w).status = "ok" ∧ dirsTruthy s = true) := by
  unfold checkFileStorage
  by_cases hauth : (jsTruthyS s.sasUrl || s.credential.isSome) = true
  · rw [hauth]
    by_cases hex : w.shareExists = true
    · rw [hex]
      rcases hds : s.directories with _ | l
      · simp only [if_true, Bool.not_true, Bool.false_eq_true, if_false]
        unfold checkRootOnly
        cases hroot : countFilesRecursively (w.listing "") with
        | ok a => simp [dirsTruthy, hds]
        | error e => simp [dirsTruthy, hds, storageErrorResult]
      · by_cases hl : 0 < l.length
        · simp [hl, dirsTruthy, hds]
        · simp only [if_true, Bool.not_true, Bool.false_eq_true, if_false, if_neg hl]
          unfold checkRootOnly
          cases hroot : countFilesRecursively (w.listing "") with
          | ok a => simp [dirsTruthy, hds, hl]
          | error e => simp [dirsTruthy, hds, storageErrorResult]
    · rw [Bool.not_eq_true] at hex
      rw [hex]
      simp
  · rw [Bool.not_eq_true] at hauth
    rw [hauth]
    simp [storageErrorResult]

end AzureMonitorApp
